import Mathlib

/-!
Verification of the FPL squad optimiser core.

This file gives a shallow embedding of the optimisation engine of the
fpl-planner repository (optimiser/solver.py, optimiser/expected_points.py
and the post-solve logic of scripts/optimise.py) and proves the testable
properties stated in its specification.

Numeric player fields (now_cost, exp_pts) are modelled as rationals: the
python floats involved (costs in tenths, scores with one decimal) are
exactly representable and no float rounding is exercised by the code paths
modelled here.
-/

/-- Player row of the players DataFrame, restricted to the columns the
optimiser reads: id, element_type (1=GK, 2=DEF, 3=MID, 4=FWD), team,
now_cost (tenths of a million) and the computed exp_pts score. -/
structure Player where
  id : Nat
  element_type : Nat
  team : Nat
  now_cost : Rat
  exp_pts : Rat
deriving DecidableEq

/-- Budget constraint body of build_squad_lp: the sum of now_cost/10.0 over
players whose decision variable is set. -/
def selCost (players : List Player) (sel : Nat → Bool) : Rat :=
  (players.map (fun p => if sel p.id then p.now_cost / 10 else 0)).sum

/-- SquadSize constraint body of build_squad_lp: the number of set decision
variables. The model keys one binary variable per distinct player id, so the
sum ranges over deduplicated ids. -/
def selCount (players : List Player) (sel : Nat → Bool) : Nat :=
  ((players.map Player.id).dedup.filter (fun i => sel i)).length

/-- Count constraint body of build_squad_lp for one position: the number of
selected rows whose element_type equals etype. -/
def posCount (players : List Player) (sel : Nat → Bool) (etype : Nat) : Nat :=
  ((players.filter (fun p => p.element_type == etype)).filter (fun p => sel p.id)).length

/-- TeamLimit constraint body of build_squad_lp for one team id: the number
of selected rows of that team. -/
def teamCount (players : List Player) (sel : Nat → Bool) (t : Nat) : Nat :=
  ((players.filter (fun p => p.team == t)).filter (fun p => sel p.id)).length

/-- Position quotas hard-coded in build_squad_lp: 2 GK, 5 DEF, 5 MID, 3 FWD. -/
def positionQuotas : List (Nat × Nat) := [(1, 2), (2, 5), (3, 5), (4, 3)]

/-- Conjunction of every constraint build_squad_lp adds to the binary
program: Budget, SquadSize, the four Count constraints, and one TeamLimit
constraint per team id present in the pool. -/
def squadConstraints (players : List Player) (budget_m : Rat) (max_per_team : Nat)
    (sel : Nat → Bool) : Bool :=
  decide (selCost players sel ≤ budget_m)
    && (selCount players sel == 15)
    && positionQuotas.all (fun q => posCount players sel q.1 == q.2)
    && (players.map Player.team).all (fun t => decide (teamCount players sel t ≤ max_per_team))

/-- Objective of build_squad_lp: the sum of exp_pts over selected players. -/
def objectiveVal (players : List Player) (sel : Nat → Bool) : Rat :=
  (players.map (fun p => if sel p.id then p.exp_pts else 0)).sum

/-- Rows of the pool whose decision variable is set. -/
def selectedPlayers (players : List Player) (sel : Nat → Bool) : List Player :=
  players.filter (fun p => sel p.id)

/-- Test applied by extract_solution to one solver variable: its value is
not None and exceeds 0.5. -/
def varSelected : Option Rat → Bool
  | some v => decide (v > 0.5)
  | none => false

/-- Translation of extract_solution: collect the ids whose variable value is
not None and exceeds 0.5, then keep the pool rows whose id is among them. -/
def extract_solution (players : List Player) (x_vars : List (Nat × Option Rat)) : List Player :=
  let chosen := (x_vars.filter (fun pr => varSelected pr.2)).map Prod.fst
  players.filter (fun p => chosen.contains p.id)

/-- Descending comparison on exp_pts used by the sort_values calls of
pick_starting_xi. -/
def byPts (a b : Player) : Prop := b.exp_pts ≤ a.exp_pts

instance : DecidableRel byPts := fun a b => inferInstanceAs (Decidable (b.exp_pts ≤ a.exp_pts))

instance : IsTotal Player byPts := ⟨fun a b => le_total b.exp_pts a.exp_pts⟩

instance : IsTrans Player byPts := ⟨fun _ _ _ hab hbc => le_trans hbc hab⟩

/-- Model of sort_values on exp_pts with ascending=False: a sort by
descending exp_pts. -/
def sortDesc (l : List Player) : List Player := List.insertionSort byPts l

/-- Model of sort_values followed by head(n): the n highest-scoring rows. -/
def topN (n : Nat) (l : List Player) : List Player := (sortDesc l).take n

/-- Rows of the squad in one position group. -/
def posPlayers (squad : List Player) (e : Nat) : List Player :=
  squad.filter (fun p => p.element_type == e)

/-- Sum of exp_pts over a lineup. -/
def totalPts (l : List Player) : Rat := (l.map Player.exp_pts).sum

/-- Candidate formation triple (defenders, midfielders, forwards). -/
structure Formation where
  d : Nat
  m : Nat
  f : Nat
deriving DecidableEq

/-- Candidate lineup pick_starting_xi builds for one formation: the top
goalkeeper concatenated with the top d defenders, m midfielders and f
forwards by exp_pts. -/
def xiCandidate (squad : List Player) (fm : Formation) : List Player :=
  topN 1 (posPlayers squad 1) ++ topN fm.d (posPlayers squad 2)
    ++ topN fm.m (posPlayers squad 3) ++ topN fm.f (posPlayers squad 4)

/-- Completeness test of pick_starting_xi: the candidate lineup is kept only
when its length equals 1 + d + m + f. -/
def feasLen (squad : List Player) (fm : Formation) : Bool :=
  (xiCandidate squad fm).length == 1 + fm.d + fm.m + fm.f

/-- Loop body of pick_starting_xi: walk the formation list keeping the best
complete candidate, replacing it only on a strictly larger exp_pts total. -/
def pickLoop (squad : List Player) :
    List Formation → Option (List Player × Formation) → Option (List Player × Formation)
  | [], best => best
  | fm :: rest, best =>
    let xi := xiCandidate squad fm
    if feasLen squad fm then
      match best with
      | none => pickLoop squad rest (some (xi, fm))
      | some b =>
        if totalPts xi > totalPts b.1 then pickLoop squad rest (some (xi, fm))
        else pickLoop squad rest best
    else pickLoop squad rest best

/-- Translation of pick_starting_xi: scan the formations, return the best
complete candidate and its formation as a list, or fall back to the top 11
squad rows with the sentinel formation [-1, -1, -1]. -/
def pick_starting_xi (squad : List Player) (formations : List Formation) :
    List Player × List Int :=
  match pickLoop squad formations none with
  | some (xi, fm) => (xi, [(fm.d : Int), (fm.m : Int), (fm.f : Int)])
  | none => (topN 11 squad, [-1, -1, -1])

/-- Formations of the list whose candidate lineup passes the completeness
test, in list order. -/
def feasList (squad : List Player) (formations : List Formation) : List Formation :=
  formations.filter (fun fm => feasLen squad fm)

/-- Default formation list of scripts/optimise.py. -/
def defaultFormations : List Formation := [⟨3, 4, 3⟩, ⟨3, 5, 2⟩, ⟨4, 4, 2⟩]

/-- Maximum exp_pts over a lineup, as computed by the idxmax call of
scripts/optimise.py (0 on an empty frame, where idxmax is never reached). -/
def maxPts : List Player → Rat
  | [] => 0
  | p :: ps => ps.foldl (fun acc q => max acc q.exp_pts) p.exp_pts

/-- Flag the first row attaining exp_pts value M with True and every other
row with False, mirroring loc-assignment at the idxmax index. -/
def markFirst (M : Rat) : List Player → List (Player × Bool)
  | [] => []
  | p :: ps =>
    if p.exp_pts = M then (p, true) :: ps.map (fun q => (q, false))
    else (p, false) :: markFirst M ps

/-- Captain assignment of scripts/optimise.py: is_captain is 0 everywhere,
then set to 1 at the idxmax of exp_pts (the first row attaining the maximum)
when the lineup is non-empty. -/
def assignCaptain (xi : List Player) : List (Player × Bool) :=
  if xi.isEmpty then xi.map (fun q => (q, false))
  else markFirst (maxPts xi) xi

/-- Named expected-points model variants registered in get_ep_model. -/
inductive EPModelKind where
  | fplEpNext
  | formPpgBlend
deriving DecidableEq

/-- Error values of the python code paths modelled here. The source raises
ValueError for an unknown model name; ConfigurationError appears only in the
error taxonomy of the specification and is included so that claims about it
can be stated and compared against the behaviour of the source. -/
inductive PyError where
  | valueError (msg : String)
  | configurationError (msg : String)
deriving DecidableEq

/-- Translation of get_ep_model: the two registered names succeed and every
other name raises ValueError with the message of the source. -/
def get_ep_model (name : String) : Except PyError EPModelKind :=
  if name = "fpl_ep_next" then .ok .fplEpNext
  else if name = "form_ppg_blend" then .ok .formPpgBlend
  else .error (.valueError ("Unknown EP model: " ++ name))

/-- Raw cell of a DataFrame column: a numeric value, a non-numeric value
that to_numeric with errors=coerce turns into NaN, or a missing value. -/
inductive RawVal where
  | num (q : Rat)
  | nonNumeric
  | na
deriving DecidableEq

/-- Per-cell effect of pd.to_numeric(col, errors=coerce) followed by
fillna(0.0): numeric cells pass through, everything else becomes 0.0. -/
def coerce0 : RawVal → Rat
  | .num q => q
  | .nonNumeric => 0
  | .na => 0

/-- Model of players_df.get(name, Series of n zeros): the column when the
frame has it, otherwise a zero column of the frame length. -/
def getCol (col : Option (List RawVal)) (n : Nat) : List RawVal :=
  col.getD (List.replicate n (.num 0))

/-- Translation of FormPPGBlendModel.compute: coerce the form and
points_per_game columns and blend them cellwise as 0.6*form + 0.4*ppg. -/
def formPPGBlend_compute (form ppg : Option (List RawVal)) (n : Nat) : List Rat :=
  List.zipWith (fun a b => 0.6 * a + 0.4 * b)
    ((getCol form n).map coerce0) ((getCol ppg n).map coerce0)

/-- Failure values of the post-solve logic of scripts/optimise.py. The
source aborts via SystemExit; InfeasibleError appears only in the error
taxonomy of the specification and is included so that claims about it can
be stated and compared against the behaviour of the source. -/
inductive RunError where
  | systemExit (msg : String)
  | infeasibleError
deriving DecidableEq

/-- Post-solve logic of the main function of scripts/optimise.py: any
status other than Optimal aborts via SystemExit before extract_solution
runs; on Optimal the squad is extracted from the variable values. -/
def afterSolve (players : List Player) (statusName : String)
    (x_vars : List (Nat × Option Rat)) : Except RunError (List Player) :=
  if statusName ≠ "Optimal" then
    .error (.systemExit ("Optimiser did not find an optimal solution. Status=" ++ statusName))
  else .ok (extract_solution players x_vars)

/-- JSON value written under the formation_used key of summary.json: the
source always writes the list returned by pick_starting_xi, never a string. -/
inductive JsonVal where
  | arr (l : List Int)
  | str (s : String)
deriving DecidableEq

/-- formation_used entry of summary.json as written by scripts/optimise.py. -/
def formation_used_json (squad : List Player) (formations : List Formation) : JsonVal :=
  .arr (pick_starting_xi squad formations).2

/-- Block of n identical players on consecutive ids, mirroring the pool
construction of tests/test_basic.py. -/
def mkBlock (startId n etype team : Nat) (cost pts : Rat) : List Player :=
  (List.range n).map (fun k =>
    { id := startId + k, element_type := etype, team := team, now_cost := cost, exp_pts := pts })

/-- Scenario A pool of the specification: 2 GK (score 3.0, cost 4.5), 5 DEF
(4.0, 4.5), 5 MID (4.5, 5.0), 3 FWD (5.0, 5.5), costs stored as now_cost in
tenths, one team per position group as in tests/test_basic.py. -/
def scenarioA_pool : List Player :=
  mkBlock 1 2 1 1 45 3 ++ mkBlock 3 5 2 2 45 4 ++ mkBlock 8 5 3 3 50 4.5 ++ mkBlock 13 3 4 4 55 5

/-- Scenario D squad of the specification: only 1 usable defender (2 GK,
1 DEF, 5 MID, 3 FWD), so every default formation is incomplete. -/
def scenarioD_squad : List Player :=
  mkBlock 1 2 1 1 45 3 ++ mkBlock 3 1 2 2 45 4 ++ mkBlock 8 5 3 3 50 4.5 ++ mkBlock 13 3 4 4 55 5

theorem sum_ite_filter (l : List Player) (p : Player → Bool) (f : Player → Rat) :
    (l.map (fun a => if p a then f a else 0)).sum = ((l.filter p).map f).sum := by
  induction l with
  | nil => rfl
  | cons a l ih => by_cases h : p a <;> simp [List.filter_cons, h, ih]

theorem selCount_eq_length (players : List Player) (sel : Nat → Bool)
    (hids : (players.map Player.id).Nodup) :
    selCount players sel = (selectedPlayers players sel).length := by
  unfold selCount selectedPlayers
  rw [List.dedup_eq_self.mpr hids, List.filter_map, List.length_map]
  rfl

theorem posCount_eq_countP (players : List Player) (sel : Nat → Bool) (e : Nat) :
    posCount players sel e
      = (selectedPlayers players sel).countP (fun p => p.element_type == e) := by
  unfold posCount selectedPlayers
  rw [List.countP_eq_length_filter, List.filter_filter, List.filter_filter]
  congr 1
  exact List.filter_congr (fun a _ => Bool.and_comm _ _)

theorem teamCount_eq_countP (players : List Player) (sel : Nat → Bool) (t : Nat) :
    teamCount players sel t
      = (selectedPlayers players sel).countP (fun p => p.team == t) := by
  unfold teamCount selectedPlayers
  rw [List.countP_eq_length_filter, List.filter_filter, List.filter_filter]
  congr 1
  exact List.filter_congr (fun a _ => Bool.and_comm _ _)

theorem length_filter_eq_all {α : Type} (p : α → Bool) :
    ∀ l : List α, (l.filter p).length = l.length → ∀ a ∈ l, p a = true := by
  intro l
  induction l with
  | nil => intro _ a ha; cases ha
  | cons a l ih =>
    intro h b hb
    by_cases hp : p a
    · rcases List.mem_cons.mp hb with rfl | hbl
      · exact hp
      · refine ih ?_ b hbl
        simpa [List.filter_cons, hp] using h
    · exfalso
      have hle := List.length_filter_le p l
      simp [List.filter_cons, hp] at h
      omega

theorem squadConstraints_spec (players : List Player) (budget_m : Rat) (max_per_team : Nat)
    (sel : Nat → Bool) (hc : squadConstraints players budget_m max_per_team sel = true) :
    selCost players sel ≤ budget_m
    ∧ selCount players sel = 15
    ∧ posCount players sel 1 = 2 ∧ posCount players sel 2 = 5
    ∧ posCount players sel 3 = 5 ∧ posCount players sel 4 = 3
    ∧ ∀ t ∈ players.map Player.team, teamCount players sel t ≤ max_per_team := by
  unfold squadConstraints at hc
  simp only [Bool.and_eq_true, decide_eq_true_eq, beq_iff_eq, List.all_eq_true] at hc
  obtain ⟨⟨⟨h1, h2⟩, h3⟩, h4⟩ := hc
  refine ⟨h1, h2, ?_, ?_, ?_, ?_, fun t ht => h4 t ht⟩
  · exact h3 (1, 2) (by simp [positionQuotas])
  · exact h3 (2, 5) (by simp [positionQuotas])
  · exact h3 (3, 5) (by simp [positionQuotas])
  · exact h3 (4, 3) (by simp [positionQuotas])

/-- C1: every 0/1 assignment of the decision variables that satisfies all
constraints of the program built by build_squad_lp (over a pool with unique
player ids, as the data model requires) selects exactly 15 players, of which
exactly 2 GK, 5 DEF, 5 MID and 3 FWD; the sum of now_cost/10 over the
selected players is at most budget_m; and no team contributes more than
max_per_team selected players. -/
theorem claim_C1_lp_constraints_sound (players : List Player) (budget_m : Rat)
    (max_per_team : Nat) (sel : Nat → Bool)
    (hids : (players.map Player.id).Nodup)
    (hc : squadConstraints players budget_m max_per_team sel = true) :
    (selectedPlayers players sel).length = 15
    ∧ (selectedPlayers players sel).countP (fun p => p.element_type == 1) = 2
    ∧ (selectedPlayers players sel).countP (fun p => p.element_type == 2) = 5
    ∧ (selectedPlayers players sel).countP (fun p => p.element_type == 3) = 5
    ∧ (selectedPlayers players sel).countP (fun p => p.element_type == 4) = 3
    ∧ ((selectedPlayers players sel).map (fun p => p.now_cost / 10)).sum ≤ budget_m
    ∧ ∀ t, (selectedPlayers players sel).countP (fun p => p.team == t) ≤ max_per_team := by
  obtain ⟨h1, h2, hq1, hq2, hq3, hq4, h7⟩ :=
    squadConstraints_spec players budget_m max_per_team sel hc
  refine ⟨?_, ?_, ?_, ?_, ?_, ?_, ?_⟩
  · rw [← selCount_eq_length players sel hids]; exact h2
  · rw [← posCount_eq_countP]; exact hq1
  · rw [← posCount_eq_countP]; exact hq2
  · rw [← posCount_eq_countP]; exact hq3
  · rw [← posCount_eq_countP]; exact hq4
  · have hs := sum_ite_filter players (fun p => sel p.id) (fun p => p.now_cost / 10)
    unfold selCost at h1
    unfold selectedPlayers
    rw [← hs]
    exact h1
  · intro t
    by_cases ht : t ∈ players.map Player.team
    · rw [← teamCount_eq_countP]; exact h7 t ht
    · have hz : (selectedPlayers players sel).countP (fun p => p.team == t) = 0 := by
        rw [List.countP_eq_zero]
        intro p hp
        have hpl : p ∈ players := List.mem_of_mem_filter hp
        simp only [beq_iff_eq]
        intro he
        exact ht (he ▸ List.mem_map_of_mem Player.team hpl)
      omega

theorem claim_C1_lp_constraints_sound_witness :
    (selectedPlayers scenarioA_pool (fun _ => true)).length = 15
    ∧ (selectedPlayers scenarioA_pool (fun _ => true)).countP (fun p => p.element_type == 1) = 2
    ∧ (selectedPlayers scenarioA_pool (fun _ => true)).countP (fun p => p.element_type == 2) = 5
    ∧ (selectedPlayers scenarioA_pool (fun _ => true)).countP (fun p => p.element_type == 3) = 5
    ∧ (selectedPlayers scenarioA_pool (fun _ => true)).countP (fun p => p.element_type == 4) = 3
    ∧ ((selectedPlayers scenarioA_pool (fun _ => true)).map (fun p => p.now_cost / 10)).sum ≤ 100
    ∧ ∀ t, (selectedPlayers scenarioA_pool (fun _ => true)).countP (fun p => p.team == t) ≤ 15 :=
  claim_C1_lp_constraints_sound scenarioA_pool 100 15 (fun _ => true)
    (by with_unfolding_all decide) (by with_unfolding_all decide)

theorem scenarioA_forces_all (budget_m : Rat) (max_per_team : Nat) (sel : Nat → Bool)
    (hc : squadConstraints scenarioA_pool budget_m max_per_team sel = true) :
    ∀ p ∈ scenarioA_pool, sel p.id = true := by
  have hids : (scenarioA_pool.map Player.id).Nodup := by with_unfolding_all decide
  have hlen : (selectedPlayers scenarioA_pool sel).length = 15 := by
    rw [← selCount_eq_length _ _ hids]
    exact (squadConstraints_spec _ _ _ _ hc).2.1
  have hfull : (selectedPlayers scenarioA_pool sel).length = scenarioA_pool.length := by
    rw [hlen]; with_unfolding_all decide
  exact length_filter_eq_all _ scenarioA_pool hfull

theorem scenarioA_selCost (sel : Nat → Bool)
    (hall : ∀ p ∈ scenarioA_pool, sel p.id = true) :
    selCost scenarioA_pool sel = 73 := by
  have hmap : scenarioA_pool.map (fun p => if sel p.id then p.now_cost / 10 else 0)
      = scenarioA_pool.map (fun p => p.now_cost / 10) :=
    List.map_congr_left (fun p hp => by simp [hall p hp])
  unfold selCost
  rw [hmap]
  with_unfolding_all decide

theorem scenarioA_objective (sel : Nat → Bool)
    (hall : ∀ p ∈ scenarioA_pool, sel p.id = true) :
    objectiveVal scenarioA_pool sel = 63.5 := by
  have hmap : scenarioA_pool.map (fun p => if sel p.id then p.exp_pts else 0)
      = scenarioA_pool.map Player.exp_pts :=
    List.map_congr_left (fun p hp => by simp [hall p hp])
  unfold objectiveVal
  rw [hmap]
  with_unfolding_all decide

/-- C3: on the Scenario A pool with budget 100 and a non-binding team limit,
selecting everything satisfies all constraints of the program built by
build_squad_lp, and every assignment satisfying them selects all 15
candidates, has cost sum exactly 73 (hence within budget 100) and objective
value exactly 63.5. -/
theorem claim_C3_scenarioA_unique_optimum :
    squadConstraints scenarioA_pool 100 15 (fun _ => true) = true
    ∧ ∀ sel : Nat → Bool, squadConstraints scenarioA_pool 100 15 sel = true →
        (∀ p ∈ scenarioA_pool, sel p.id = true)
        ∧ selCost scenarioA_pool sel = 73
        ∧ selCost scenarioA_pool sel ≤ 100
        ∧ objectiveVal scenarioA_pool sel = 63.5 := by
  constructor
  · with_unfolding_all decide
  · intro sel hc
    have hall := scenarioA_forces_all 100 15 sel hc
    have hcost := scenarioA_selCost sel hall
    refine ⟨hall, hcost, ?_, scenarioA_objective sel hall⟩
    rw [hcost]
    norm_num

theorem claim_C3_scenarioA_unique_optimum_witness :
    (∀ p ∈ scenarioA_pool, (fun _ => true) p.id = true)
    ∧ selCost scenarioA_pool (fun _ => true) = 73
    ∧ selCost scenarioA_pool (fun _ => true) ≤ 100
    ∧ objectiveVal scenarioA_pool (fun _ => true) = 63.5 :=
  claim_C3_scenarioA_unique_optimum.2 (fun _ => true) (by with_unfolding_all decide)

/-- C2 amended: whenever the solver status is anything other than Optimal,
the run aborts via SystemExit (a typed abort, though not the InfeasibleError
named by the specification) and no squad, partial or otherwise, is returned;
and the Scenario B program (Scenario A pool, budget 50, minimum legal cost
73) is infeasible: no assignment satisfies its constraints. -/
theorem claim_C2_nonoptimal_aborts (statusName : String) (players : List Player)
    (x_vars : List (Nat × Option Rat)) (h : statusName ≠ "Optimal") :
    afterSolve players statusName x_vars
      = Except.error (RunError.systemExit
          ("Optimiser did not find an optimal solution. Status=" ++ statusName))
    ∧ (∀ squad, afterSolve players statusName x_vars ≠ Except.ok squad)
    ∧ ∀ sel : Nat → Bool, squadConstraints scenarioA_pool 50 15 sel = false := by
  refine ⟨by simp [afterSolve, h], ?_, ?_⟩
  · intro squad
    simp [afterSolve, h]
  · intro sel
    cases hb : squadConstraints scenarioA_pool 50 15 sel with
    | false => rfl
    | true =>
      exfalso
      have hall := scenarioA_forces_all 50 15 sel hb
      have hcost := scenarioA_selCost sel hall
      have hle : selCost scenarioA_pool sel ≤ 50 := (squadConstraints_spec _ _ _ _ hb).1
      rw [hcost] at hle
      norm_num at hle

theorem claim_C2_nonoptimal_aborts_witness :
    afterSolve scenarioA_pool "Infeasible" []
      = Except.error (RunError.systemExit
          ("Optimiser did not find an optimal solution. Status=" ++ "Infeasible"))
    ∧ (∀ squad, afterSolve scenarioA_pool "Infeasible" [] ≠ Except.ok squad)
    ∧ ∀ sel : Nat → Bool, squadConstraints scenarioA_pool 50 15 sel = false :=
  claim_C2_nonoptimal_aborts "Infeasible" scenarioA_pool [] (by decide)

/-- C2 counterexample: for the infeasible Scenario B solve the run aborts
with a SystemExit value, not with the InfeasibleError the claim names. -/
theorem claim_C2_counterexample :
    afterSolve scenarioA_pool "Infeasible" []
      = Except.error (RunError.systemExit
          "Optimiser did not find an optimal solution. Status=Infeasible")
    ∧ afterSolve scenarioA_pool "Infeasible" []
      ≠ Except.error RunError.infeasibleError := by
  constructor
  · simp [afterSolve]
  · simp [afterSolve]

theorem sortDesc_perm (l : List Player) : (sortDesc l).Perm l :=
  List.perm_insertionSort byPts l

theorem sortDesc_length (l : List Player) : (sortDesc l).length = l.length :=
  (sortDesc_perm l).length_eq

theorem sortDesc_mem {l : List Player} {p : Player} : p ∈ sortDesc l ↔ p ∈ l :=
  (sortDesc_perm l).mem_iff

theorem sortDesc_sorted (l : List Player) : List.Sorted byPts (sortDesc l) :=
  List.sorted_insertionSort byPts l

theorem topN_length (n : Nat) (l : List Player) : (topN n l).length = min n l.length := by
  unfold topN
  rw [List.length_take, sortDesc_length]

theorem topN_subset {n : Nat} {l : List Player} : ∀ p ∈ topN n l, p ∈ l := by
  intro p hp
  exact sortDesc_mem.mp (List.take_subset n (sortDesc l) hp)

theorem posPlayers_mem {squad : List Player} {e : Nat} {p : Player} :
    p ∈ posPlayers squad e → p ∈ squad ∧ p.element_type = e := by
  intro hp
  have h := List.mem_filter.mp hp
  exact ⟨h.1, by simpa using h.2⟩

theorem topN_pos_etype {squad : List Player} {e n : Nat} :
    ∀ p ∈ topN n (posPlayers squad e), p.element_type = e :=
  fun p hp => (posPlayers_mem (topN_subset p hp)).2

theorem xiCandidate_length (squad : List Player) (fm : Formation) :
    (xiCandidate squad fm).length
      = min 1 (posPlayers squad 1).length + min fm.d (posPlayers squad 2).length
        + min fm.m (posPlayers squad 3).length + min fm.f (posPlayers squad 4).length := by
  unfold xiCandidate
  simp only [List.length_append, topN_length]

theorem feasLen_iff (squad : List Player) (fm : Formation) :
    feasLen squad fm = true
      ↔ 1 ≤ (posPlayers squad 1).length ∧ fm.d ≤ (posPlayers squad 2).length
        ∧ fm.m ≤ (posPlayers squad 3).length ∧ fm.f ≤ (posPlayers squad 4).length := by
  unfold feasLen
  rw [beq_iff_eq, xiCandidate_length]
  omega

theorem countP_part_same (squad : List Player) (e n : Nat) :
    (topN n (posPlayers squad e)).countP (fun p => p.element_type == e)
      = (topN n (posPlayers squad e)).length :=
  List.countP_eq_length.mpr (fun p hp => by simp [topN_pos_etype p hp])

theorem countP_part_other (squad : List Player) (e n e0 : Nat) (hne : e ≠ e0) :
    (topN n (posPlayers squad e)).countP (fun p => p.element_type == e0) = 0 :=
  List.countP_eq_zero.mpr (fun p hp => by
    have h := topN_pos_etype p hp
    simp [h]
    omega)

theorem xiCandidate_counts (squad : List Player) (fm : Formation)
    (hf : feasLen squad fm = true) :
    (xiCandidate squad fm).countP (fun p => p.element_type == 1) = 1
    ∧ (xiCandidate squad fm).countP (fun p => p.element_type == 2) = fm.d
    ∧ (xiCandidate squad fm).countP (fun p => p.element_type == 3) = fm.m
    ∧ (xiCandidate squad fm).countP (fun p => p.element_type == 4) = fm.f := by
  obtain ⟨h1, h2, h3, h4⟩ := (feasLen_iff squad fm).mp hf
  have l1 : (topN 1 (posPlayers squad 1)).length = 1 := by rw [topN_length]; omega
  have l2 : (topN fm.d (posPlayers squad 2)).length = fm.d := by rw [topN_length]; omega
  have l3 : (topN fm.m (posPlayers squad 3)).length = fm.m := by rw [topN_length]; omega
  have l4 : (topN fm.f (posPlayers squad 4)).length = fm.f := by rw [topN_length]; omega
  unfold xiCandidate
  simp only [List.countP_append]
  refine ⟨?_, ?_, ?_, ?_⟩
  · rw [countP_part_same, countP_part_other squad 2 fm.d 1 (by omega),
      countP_part_other squad 3 fm.m 1 (by omega), countP_part_other squad 4 fm.f 1 (by omega), l1]
  · rw [countP_part_same, countP_part_other squad 1 1 2 (by omega),
      countP_part_other squad 3 fm.m 2 (by omega), countP_part_other squad 4 fm.f 2 (by omega), l2]
    omega
  · rw [countP_part_same, countP_part_other squad 1 1 3 (by omega),
      countP_part_other squad 2 fm.d 3 (by omega), countP_part_other squad 4 fm.f 3 (by omega), l3]
    omega
  · rw [countP_part_same, countP_part_other squad 1 1 4 (by omega),
      countP_part_other squad 2 fm.d 4 (by omega), countP_part_other squad 3 fm.m 4 (by omega), l4]
    omega

/-- Winner of the strict-improvement scan of pick_starting_xi, starting from
a current best formation g and walking the remaining feasible formations. -/
def bestOf (squad : List Player) (g : Formation) : List Formation → Formation
  | [] => g
  | f :: fs =>
    if totalPts (xiCandidate squad f) > totalPts (xiCandidate squad g)
    then bestOf squad f fs else bestOf squad g fs

theorem feasList_cons_feas (squad : List Player) (fm : Formation) (fs : List Formation)
    (h : feasLen squad fm = true) :
    feasList squad (fm :: fs) = fm :: feasList squad fs := by
  simp [feasList, List.filter_cons, h]

theorem feasList_cons_infeas (squad : List Player) (fm : Formation) (fs : List Formation)
    (h : feasLen squad fm = false) :
    feasList squad (fm :: fs) = feasList squad fs := by
  simp [feasList, List.filter_cons, h]

theorem feasList_spec (squad : List Player) (fs : List Formation) :
    ∀ f ∈ feasList squad fs, f ∈ fs ∧ feasLen squad f = true := by
  intro f hf
  exact List.mem_filter.mp hf

theorem pickLoop_cons_infeas (squad : List Player) (fm : Formation) (fs : List Formation)
    (best : Option (List Player × Formation)) (h : feasLen squad fm = false) :
    pickLoop squad (fm :: fs) best = pickLoop squad fs best := by
  simp [pickLoop, h]

theorem pickLoop_cons_feas_none (squad : List Player) (fm : Formation) (fs : List Formation)
    (h : feasLen squad fm = true) :
    pickLoop squad (fm :: fs) none = pickLoop squad fs (some (xiCandidate squad fm, fm)) := by
  simp [pickLoop, h]

theorem pickLoop_cons_feas_some_gt (squad : List Player) (fm : Formation) (fs : List Formation)
    (xi : List Player) (g : Formation) (h : feasLen squad fm = true)
    (hgt : totalPts (xiCandidate squad fm) > totalPts xi) :
    pickLoop squad (fm :: fs) (some (xi, g))
      = pickLoop squad fs (some (xiCandidate squad fm, fm)) := by
  simp [pickLoop, h, hgt]

theorem pickLoop_cons_feas_some_le (squad : List Player) (fm : Formation) (fs : List Formation)
    (xi : List Player) (g : Formation) (h : feasLen squad fm = true)
    (hgt : ¬ totalPts (xiCandidate squad fm) > totalPts xi) :
    pickLoop squad (fm :: fs) (some (xi, g)) = pickLoop squad fs (some (xi, g)) := by
  simp [pickLoop, h, hgt]

theorem pickLoop_some_eq_bestOf (squad : List Player) :
    ∀ (fs : List Formation) (g : Formation),
      pickLoop squad fs (some (xiCandidate squad g, g))
        = some (xiCandidate squad (bestOf squad g (feasList squad fs)),
            bestOf squad g (feasList squad fs)) := by
  intro fs
  induction fs with
  | nil => intro g; simp [pickLoop, feasList, bestOf]
  | cons fm fs ih =>
    intro g
    cases hfm : feasLen squad fm with
    | false => rw [pickLoop_cons_infeas squad fm fs _ hfm, feasList_cons_infeas squad fm fs hfm, ih]
    | true =>
      rw [feasList_cons_feas squad fm fs hfm]
      by_cases hgt : totalPts (xiCandidate squad fm) > totalPts (xiCandidate squad g)
      · rw [pickLoop_cons_feas_some_gt squad fm fs _ g hfm hgt, ih fm]
        simp [bestOf, hgt]
      · rw [pickLoop_cons_feas_some_le squad fm fs _ g hfm hgt, ih g]
        simp [bestOf, hgt]

theorem pickLoop_none_eq_bestOf (squad : List Player) :
    ∀ fs : List Formation,
      (feasList squad fs = [] → pickLoop squad fs none = none)
      ∧ ∀ f₁ rest, feasList squad fs = f₁ :: rest →
          pickLoop squad fs none
            = some (xiCandidate squad (bestOf squad f₁ rest), bestOf squad f₁ rest) := by
  intro fs
  induction fs with
  | nil => exact ⟨fun _ => rfl, fun f₁ rest h => by simp [feasList] at h⟩
  | cons fm fs ih =>
    cases hfm : feasLen squad fm with
    | false =>
      rw [pickLoop_cons_infeas squad fm fs none hfm]
      rw [feasList_cons_infeas squad fm fs hfm]
      exact ih
    | true =>
      rw [pickLoop_cons_feas_none squad fm fs hfm]
      rw [feasList_cons_feas squad fm fs hfm]
      refine ⟨fun h => by simp at h, ?_⟩
      intro f₁ rest h
      injection h with h1 h2
      subst h1
      subst h2
      exact pickLoop_some_eq_bestOf squad fs fm

theorem bestOf_cons_gt (squad : List Player) (g f : Formation) (l : List Formation)
    (h : totalPts (xiCandidate squad f) > totalPts (xiCandidate squad g)) :
    bestOf squad g (f :: l) = bestOf squad f l := by
  simp [bestOf, h]

theorem bestOf_cons_le (squad : List Player) (g f : Formation) (l : List Formation)
    (h : ¬ totalPts (xiCandidate squad f) > totalPts (xiCandidate squad g)) :
    bestOf squad g (f :: l) = bestOf squad g l := by
  simp [bestOf, h]

theorem bestOf_mem (squad : List Player) :
    ∀ (l : List Formation) (g : Formation), bestOf squad g l ∈ g :: l := by
  intro l
  induction l with
  | nil => intro g; simp [bestOf]
  | cons f l ih =>
    intro g
    by_cases hgt : totalPts (xiCandidate squad f) > totalPts (xiCandidate squad g)
    · rw [bestOf_cons_gt squad g f l hgt]
      exact List.mem_cons_of_mem _ (ih f)
    · rw [bestOf_cons_le squad g f l hgt]
      rcases List.mem_cons.mp (ih g) with h | h
      · rw [h]; exact List.mem_cons_self _ _
      · exact List.mem_cons_of_mem _ (List.mem_cons_of_mem _ h)

theorem bestOf_max (squad : List Player) :
    ∀ (l : List Formation) (g : Formation), ∀ f ∈ g :: l,
      totalPts (xiCandidate squad f) ≤ totalPts (xiCandidate squad (bestOf squad g l)) := by
  intro l
  induction l with
  | nil =>
    intro g f hf
    rcases List.mem_cons.mp hf with h | h
    · rw [h]; simp [bestOf]
    · cases h
  | cons a l ih =>
    intro g f hf
    by_cases hgt : totalPts (xiCandidate squad a) > totalPts (xiCandidate squad g)
    · rw [bestOf_cons_gt squad g a l hgt]
      rcases List.mem_cons.mp hf with h | h
      · rw [h]
        exact le_trans (le_of_lt hgt) (ih a a (List.mem_cons_self _ _))
      · rcases List.mem_cons.mp h with h2 | h2
        · rw [h2]; exact ih a a (List.mem_cons_self _ _)
        · exact ih a f (List.mem_cons_of_mem _ h2)
    · rw [bestOf_cons_le squad g a l hgt]
      rcases List.mem_cons.mp hf with h | h
      · rw [h]; exact ih g g (List.mem_cons_self _ _)
      · rcases List.mem_cons.mp h with h2 | h2
        · rw [h2]
          exact le_trans (le_of_not_lt hgt) (ih g g (List.mem_cons_self _ _))
        · exact ih g f (List.mem_cons_of_mem _ h2)

theorem bestOf_first (squad : List Player) :
    ∀ (l : List Formation) (g : Formation),
      ∃ l₁ l₂, g :: l = l₁ ++ bestOf squad g l :: l₂
        ∧ ∀ f ∈ l₁, totalPts (xiCandidate squad f)
            < totalPts (xiCandidate squad (bestOf squad g l)) := by
  intro l
  induction l with
  | nil => intro g; exact ⟨[], [], by simp [bestOf], by simp⟩
  | cons a l ih =>
    intro g
    by_cases hgt : totalPts (xiCandidate squad a) > totalPts (xiCandidate squad g)
    · obtain ⟨l₁, l₂, hdec, hstrict⟩ := ih a
      rw [bestOf_cons_gt squad g a l hgt]
      refine ⟨g :: l₁, l₂, ?_, ?_⟩
      · rw [List.cons_append, ← hdec]
      · intro f hf
        rcases List.mem_cons.mp hf with h | h
        · rw [h]
          exact lt_of_lt_of_le hgt (bestOf_max squad l a a (List.mem_cons_self _ _))
        · exact hstrict f h
    · obtain ⟨l₁, l₂, hdec, hstrict⟩ := ih g
      rw [bestOf_cons_le squad g a l hgt]
      cases l₁ with
      | nil =>
        simp only [List.nil_append] at hdec
        injection hdec with hg hl
        refine ⟨[], a :: l₂, ?_, by simp⟩
        rw [List.nil_append, ← hg, hl]
      | cons b l₁t =>
        rw [List.cons_append] at hdec
        injection hdec with hb hl
        have hgb : totalPts (xiCandidate squad g)
            < totalPts (xiCandidate squad (bestOf squad g l)) := by
          have hx := hstrict b (List.mem_cons_self _ _)
          rw [← hb] at hx
          exact hx
        refine ⟨g :: a :: l₁t, l₂, ?_, ?_⟩
        · rw [List.cons_append, List.cons_append, ← hl]
        · intro f hf
          rcases List.mem_cons.mp hf with h | h
          · rw [h]; exact hgb
          · rcases List.mem_cons.mp h with h2 | h2
            · rw [h2]
              exact lt_of_le_of_lt (le_of_not_lt hgt) hgb
            · exact hstrict f (List.mem_cons_of_mem _ h2)

theorem pick_spec_feasible (squad : List Player) (formations : List Formation)
    (h : ∃ fm ∈ formations, feasLen squad fm = true) :
    ∃ g, g ∈ feasList squad formations
      ∧ pick_starting_xi squad formations
          = (xiCandidate squad g, [(g.d : Int), (g.m : Int), (g.f : Int)])
      ∧ (∀ f ∈ feasList squad formations,
          totalPts (xiCandidate squad f) ≤ totalPts (xiCandidate squad g))
      ∧ ∃ l₁ l₂, feasList squad formations = l₁ ++ g :: l₂
          ∧ ∀ f ∈ l₁, totalPts (xiCandidate squad f) < totalPts (xiCandidate squad g) := by
  have hne : feasList squad formations ≠ [] := by
    obtain ⟨fm, hmem, hfeas⟩ := h
    intro hnil
    have hin : fm ∈ feasList squad formations := List.mem_filter.mpr ⟨hmem, hfeas⟩
    rw [hnil] at hin
    cases hin
  obtain ⟨f₁, rest, hfl⟩ : ∃ f₁ rest, feasList squad formations = f₁ :: rest := by
    cases hflc : feasList squad formations with
    | nil => exact absurd hflc hne
    | cons a b => exact ⟨a, b, rfl⟩
  have hrun := (pickLoop_none_eq_bestOf squad formations).2 f₁ rest hfl
  refine ⟨bestOf squad f₁ rest, ?_, ?_, ?_, ?_⟩
  · rw [hfl]; exact bestOf_mem squad rest f₁
  · unfold pick_starting_xi
    rw [hrun]
  · intro f hf
    rw [hfl] at hf
    exact bestOf_max squad rest f₁ f hf
  · obtain ⟨l₁, l₂, hdec, hstrict⟩ := bestOf_first squad rest f₁
    exact ⟨l₁, l₂, by rw [hfl, hdec], hstrict⟩

/-- C5: whenever at least one candidate lineup is complete, pick_starting_xi
returns the feasible candidate lineup with the maximal exp_pts total, and on
equal totals the formation listed earliest wins: every feasible formation
strictly before the winner in list order has a strictly smaller total. -/
theorem claim_C5_max_total_earliest_tie (squad : List Player) (formations : List Formation)
    (h : ∃ fm ∈ formations, feasLen squad fm = true) :
    ∃ g, g ∈ feasList squad formations
      ∧ pick_starting_xi squad formations
          = (xiCandidate squad g, [(g.d : Int), (g.m : Int), (g.f : Int)])
      ∧ (∀ f ∈ feasList squad formations,
          totalPts (xiCandidate squad f) ≤ totalPts (xiCandidate squad g))
      ∧ ∃ l₁ l₂, feasList squad formations = l₁ ++ g :: l₂
          ∧ ∀ f ∈ l₁, totalPts (xiCandidate squad f) < totalPts (xiCandidate squad g) :=
  pick_spec_feasible squad formations h

theorem claim_C5_max_total_earliest_tie_witness :
    ∃ g, g ∈ feasList scenarioA_pool defaultFormations
      ∧ pick_starting_xi scenarioA_pool defaultFormations
          = (xiCandidate scenarioA_pool g, [(g.d : Int), (g.m : Int), (g.f : Int)])
      ∧ (∀ f ∈ feasList scenarioA_pool defaultFormations,
          totalPts (xiCandidate scenarioA_pool f) ≤ totalPts (xiCandidate scenarioA_pool g))
      ∧ ∃ l₁ l₂, feasList scenarioA_pool defaultFormations = l₁ ++ g :: l₂
          ∧ ∀ f ∈ l₁, totalPts (xiCandidate scenarioA_pool f)
              < totalPts (xiCandidate scenarioA_pool g) :=
  claim_C5_max_total_earliest_tie scenarioA_pool defaultFormations
    (by exact ⟨⟨3, 4, 3⟩, by simp [defaultFormations], by with_unfolding_all decide⟩)

/-- C4 amended: for every squad and formation list whose triples all sum to
10 (so a complete lineup has 1 + DEF + MID + FWD = 11, as every formation of
the default configuration does), if at least one listed formation is
feasible for the squad, then pick_starting_xi returns exactly 11 players,
with exactly 1 GK and DEF/MID/FWD group counts equal to the winning
formation triple. Without the sum-10 restriction the claim is false, see
the counterexample. -/
theorem claim_C4_eleven_when_sum10 (squad : List Player) (formations : List Formation)
    (hsum : ∀ fm ∈ formations, fm.d + fm.m + fm.f = 10)
    (h : ∃ fm ∈ formations,
        1 ≤ (posPlayers squad 1).length ∧ fm.d ≤ (posPlayers squad 2).length
        ∧ fm.m ≤ (posPlayers squad 3).length ∧ fm.f ≤ (posPlayers squad 4).length) :
    ∃ g ∈ formations, feasLen squad g = true
      ∧ pick_starting_xi squad formations
          = (xiCandidate squad g, [(g.d : Int), (g.m : Int), (g.f : Int)])
      ∧ (pick_starting_xi squad formations).1.length = 11
      ∧ (pick_starting_xi squad formations).1.countP (fun p => p.element_type == 1) = 1
      ∧ (pick_starting_xi squad formations).1.countP (fun p => p.element_type == 2) = g.d
      ∧ (pick_starting_xi squad formations).1.countP (fun p => p.element_type == 3) = g.m
      ∧ (pick_starting_xi squad formations).1.countP (fun p => p.element_type == 4) = g.f := by
  obtain ⟨fm, hmem, hcond⟩ := h
  have hffm : feasLen squad fm = true := (feasLen_iff squad fm).mpr hcond
  obtain ⟨g, hgin, hrun, -, -⟩ := pick_spec_feasible squad formations ⟨fm, hmem, hffm⟩
  obtain ⟨hgmem, hgfeas⟩ := feasList_spec squad formations g hgin
  have hlen : (xiCandidate squad g).length = 11 := by
    have he : (xiCandidate squad g).length = 1 + g.d + g.m + g.f := by
      have hb := hgfeas
      unfold feasLen at hb
      exact beq_iff_eq.mp hb
    rw [he]
    have := hsum g hgmem
    omega
  obtain ⟨c1, c2, c3, c4⟩ := xiCandidate_counts squad g hgfeas
  refine ⟨g, hgmem, hgfeas, hrun, ?_, ?_, ?_, ?_, ?_⟩ <;> rw [hrun]
  · exact hlen
  · exact c1
  · exact c2
  · exact c3
  · exact c4

theorem claim_C4_eleven_when_sum10_witness :
    ∃ g ∈ defaultFormations, feasLen scenarioA_pool g = true
      ∧ pick_starting_xi scenarioA_pool defaultFormations
          = (xiCandidate scenarioA_pool g, [(g.d : Int), (g.m : Int), (g.f : Int)])
      ∧ (pick_starting_xi scenarioA_pool defaultFormations).1.length = 11
      ∧ (pick_starting_xi scenarioA_pool defaultFormations).1.countP
          (fun p => p.element_type == 1) = 1
      ∧ (pick_starting_xi scenarioA_pool defaultFormations).1.countP
          (fun p => p.element_type == 2) = g.d
      ∧ (pick_starting_xi scenarioA_pool defaultFormations).1.countP
          (fun p => p.element_type == 3) = g.m
      ∧ (pick_starting_xi scenarioA_pool defaultFormations).1.countP
          (fun p => p.element_type == 4) = g.f :=
  claim_C4_eleven_when_sum10 scenarioA_pool defaultFormations
    (by intro fm hm; fin_cases hm <;> rfl)
    (⟨⟨3, 4, 3⟩, by simp [defaultFormations], by with_unfolding_all decide⟩)

/-- C4 counterexample: on the Scenario A pool with formation list
[(3,4,3), (4,5,3)], the formation (3,4,3) is listed and feasible exactly in
the sense of the claim (enough players in every group and 1+3+4+3 = 11),
yet pick_starting_xi returns a 13-player lineup: the source checks only
that each candidate lineup is complete, never that a formation sums to 10,
and the larger (4,5,3) lineup has the larger exp_pts total. -/
theorem claim_C4_counterexample :
    ((⟨3, 4, 3⟩ : Formation) ∈ ([⟨3, 4, 3⟩, ⟨4, 5, 3⟩] : List Formation)
      ∧ 1 ≤ (posPlayers scenarioA_pool 1).length
      ∧ 3 ≤ (posPlayers scenarioA_pool 2).length
      ∧ 4 ≤ (posPlayers scenarioA_pool 3).length
      ∧ 3 ≤ (posPlayers scenarioA_pool 4).length
      ∧ 1 + 3 + 4 + 3 = 11)
    ∧ (pick_starting_xi scenarioA_pool [⟨3, 4, 3⟩, ⟨4, 5, 3⟩]).1.length = 13 := by
  with_unfolding_all decide

/-- C7 amended: when no listed formation yields a complete candidate lineup,
pick_starting_xi falls back to the top 11 squad players by exp_pts
regardless of position shape, and marks the formation result with the
sentinel value [-1, -1, -1]: a list of ints that is not a valid formation
triple, written as such into summary.json, rather than the string sentinel
"unknown" named by the specification. -/
theorem claim_C7_fallback_top11 (squad : List Player) (formations : List Formation)
    (h : ∀ fm ∈ formations, feasLen squad fm = false) :
    pick_starting_xi squad formations = (topN 11 squad, [-1, -1, -1])
    ∧ formation_used_json squad formations = JsonVal.arr [-1, -1, -1]
    ∧ (topN 11 squad).length = min 11 squad.length
    ∧ (∀ p ∈ topN 11 squad, p ∈ squad)
    ∧ ∀ p ∈ topN 11 squad, ∀ q ∈ (sortDesc squad).drop 11, q.exp_pts ≤ p.exp_pts := by
  have hfl : feasList squad formations = [] := by
    unfold feasList
    rw [List.filter_eq_nil_iff]
    intro fm hm
    simp [h fm hm]
  have hrun : pickLoop squad formations none = none :=
    (pickLoop_none_eq_bestOf squad formations).1 hfl
  have hmain : pick_starting_xi squad formations = (topN 11 squad, [-1, -1, -1]) := by
    unfold pick_starting_xi
    rw [hrun]
  refine ⟨hmain, ?_, topN_length 11 squad, topN_subset, ?_⟩
  · unfold formation_used_json
    rw [hmain]
  · intro p hp q hq
    exact (sortDesc_sorted squad).rel_of_mem_take_of_mem_drop hp hq

theorem claim_C7_fallback_top11_witness :
    pick_starting_xi scenarioD_squad defaultFormations
      = (topN 11 scenarioD_squad, [-1, -1, -1])
    ∧ formation_used_json scenarioD_squad defaultFormations = JsonVal.arr [-1, -1, -1]
    ∧ (topN 11 scenarioD_squad).length = min 11 scenarioD_squad.length
    ∧ (∀ p ∈ topN 11 scenarioD_squad, p ∈ scenarioD_squad)
    ∧ ∀ p ∈ topN 11 scenarioD_squad, ∀ q ∈ (sortDesc scenarioD_squad).drop 11,
        q.exp_pts ≤ p.exp_pts :=
  claim_C7_fallback_top11 scenarioD_squad defaultFormations (by with_unfolding_all decide)

/-- C7 counterexample: for the Scenario D squad (only 1 usable defender)
the formation result written under formation_used is the integer list
[-1, -1, -1], not the string "unknown" the claim names as the sentinel. -/
theorem claim_C7_counterexample :
    formation_used_json scenarioD_squad defaultFormations = JsonVal.arr [-1, -1, -1]
    ∧ formation_used_json scenarioD_squad defaultFormations ≠ JsonVal.str "unknown" := by
  with_unfolding_all decide

theorem foldl_max_init_le (l : List Player) :
    ∀ a : Rat, a ≤ l.foldl (fun acc q => max acc q.exp_pts) a := by
  induction l with
  | nil => intro a; exact le_refl a
  | cons p ps ih =>
    intro a
    exact le_trans (le_max_left a p.exp_pts) (ih (max a p.exp_pts))

theorem foldl_max_mem_le (l : List Player) :
    ∀ a : Rat, ∀ q ∈ l, q.exp_pts ≤ l.foldl (fun acc r => max acc r.exp_pts) a := by
  induction l with
  | nil => intro a q hq; cases hq
  | cons p ps ih =>
    intro a q hq
    rcases List.mem_cons.mp hq with h | h
    · rw [h]
      exact le_trans (le_max_right a p.exp_pts) (foldl_max_init_le ps (max a p.exp_pts))
    · exact ih (max a p.exp_pts) q h

theorem foldl_max_attained (l : List Player) :
    ∀ a : Rat, l.foldl (fun acc q => max acc q.exp_pts) a = a
      ∨ ∃ q ∈ l, l.foldl (fun acc r => max acc r.exp_pts) a = q.exp_pts := by
  induction l with
  | nil => intro a; exact Or.inl rfl
  | cons p ps ih =>
    intro a
    rcases ih (max a p.exp_pts) with h | ⟨q, hq, he⟩
    · by_cases hap : a ≤ p.exp_pts
      · right
        exact ⟨p, List.mem_cons_self _ _, by
          rw [List.foldl_cons, h, max_eq_right hap]⟩
      · left
        rw [List.foldl_cons, h, max_eq_left (le_of_not_le hap)]
    · right
      exact ⟨q, List.mem_cons_of_mem _ hq, by rw [List.foldl_cons]; exact he⟩

theorem maxPts_ge (xi : List Player) : ∀ q ∈ xi, q.exp_pts ≤ maxPts xi := by
  intro q hq
  cases xi with
  | nil => cases hq
  | cons p ps =>
    simp only [maxPts]
    rcases List.mem_cons.mp hq with h | h
    · rw [h]; exact foldl_max_init_le ps p.exp_pts
    · exact foldl_max_mem_le ps p.exp_pts q h

theorem maxPts_attained (xi : List Player) (h : xi ≠ []) :
    ∃ q ∈ xi, q.exp_pts = maxPts xi := by
  cases xi with
  | nil => exact absurd rfl h
  | cons p ps =>
    simp only [maxPts]
    rcases foldl_max_attained ps p.exp_pts with h2 | ⟨q, hq, he⟩
    · exact ⟨p, List.mem_cons_self _ _, h2.symm⟩
    · exact ⟨q, List.mem_cons_of_mem _ hq, he.symm⟩

theorem markFirst_map_fst (M : Rat) : ∀ l : List Player, (markFirst M l).map Prod.fst = l := by
  intro l
  induction l with
  | nil => rfl
  | cons p ps ih =>
    by_cases h : p.exp_pts = M
    · simp [markFirst, h, List.map_map, Function.comp_def]
    · simp only [markFirst, h, if_false, List.map_cons, ih]

theorem markFirst_count (M : Rat) :
    ∀ l : List Player, (∃ p ∈ l, p.exp_pts = M) →
      (markFirst M l).countP Prod.snd = 1 := by
  intro l
  induction l with
  | nil =>
    intro hex
    obtain ⟨p, hp, -⟩ := hex
    cases hp
  | cons p ps ih =>
    intro hex
    by_cases h : p.exp_pts = M
    · simp only [markFirst, h, if_true]
      rw [List.countP_cons]
      have hz : (ps.map (fun q => (q, false))).countP Prod.snd = 0 := by
        rw [List.countP_map]
        rw [List.countP_eq_zero]
        intro q hq
        simp [Function.comp]
      simp [hz]
    · simp only [markFirst, h, if_false]
      rw [List.countP_cons]
      obtain ⟨r, hr, hrM⟩ := hex
      rcases List.mem_cons.mp hr with he | hm
      · exact absurd (he ▸ hrM) h
      · have := ih ⟨r, hm, hrM⟩
        simp [this]

theorem markFirst_flagged (M : Rat) :
    ∀ l : List Player, ∀ pr ∈ markFirst M l, pr.2 = true →
      pr.1 ∈ l ∧ pr.1.exp_pts = M := by
  intro l
  induction l with
  | nil => intro pr hpr; cases hpr
  | cons p ps ih =>
    intro pr hpr htrue
    by_cases h : p.exp_pts = M
    · simp only [markFirst, h, if_true] at hpr
      rcases List.mem_cons.mp hpr with he | hm
      · rw [he]
        exact ⟨List.mem_cons_self _ _, h⟩
      · obtain ⟨q, hq, he⟩ := List.mem_map.mp hm
        rw [← he] at htrue
        simp at htrue
    · simp only [markFirst, h, if_false] at hpr
      rcases List.mem_cons.mp hpr with he | hm
      · rw [he] at htrue
        simp at htrue
      · have hih := ih pr hm htrue
        exact ⟨List.mem_cons_of_mem _ hih.1, hih.2⟩

/-- C6: for every non-empty starting XI the captain assignment of the main
script flags exactly one member as captain, leaves the row sequence
unchanged, and the flagged member belongs to the XI and has an exp_pts score
greater than or equal to the score of every XI member. -/
theorem claim_C6_captain_unique_max (xi : List Player) (h : xi ≠ []) :
    (assignCaptain xi).map Prod.fst = xi
    ∧ (assignCaptain xi).countP Prod.snd = 1
    ∧ ∀ pr ∈ assignCaptain xi, pr.2 = true →
        pr.1 ∈ xi ∧ ∀ q ∈ xi, q.exp_pts ≤ pr.1.exp_pts := by
  have hne : xi.isEmpty = false := by
    cases xi
    · exact absurd rfl h
    · rfl
  unfold assignCaptain
  rw [hne]
  simp only [Bool.false_eq_true, if_false]
  refine ⟨markFirst_map_fst _ xi, ?_, ?_⟩
  · exact markFirst_count _ xi (maxPts_attained xi h)
  · intro pr hpr htrue
    obtain ⟨hmem, hM⟩ := markFirst_flagged (maxPts xi) xi pr hpr htrue
    exact ⟨hmem, fun q hq => by rw [hM]; exact maxPts_ge xi q hq⟩

theorem claim_C6_captain_unique_max_witness :
    (assignCaptain scenarioD_squad).map Prod.fst = scenarioD_squad
    ∧ (assignCaptain scenarioD_squad).countP Prod.snd = 1
    ∧ ∀ pr ∈ assignCaptain scenarioD_squad, pr.2 = true →
        pr.1 ∈ scenarioD_squad
        ∧ ∀ q ∈ scenarioD_squad, q.exp_pts ≤ pr.1.exp_pts :=
  claim_C6_captain_unique_max scenarioD_squad (by with_unfolding_all decide)

/-- C8 amended: requesting an expected-points model under any unregistered
name fails with a ValueError carrying the message of the source, not with a
ConfigurationError; and a formation configuration that cannot sum to 11 is
not rejected at all: pick_starting_xi processes it, here returning a
13-player lineup for the (4,5,3) formation on the Scenario A pool. -/
theorem claim_C8_config_failures (name : String)
    (h1 : name ≠ "fpl_ep_next") (h2 : name ≠ "form_ppg_blend") :
    get_ep_model name = Except.error (PyError.valueError ("Unknown EP model: " ++ name))
    ∧ (∀ msg, get_ep_model name ≠ Except.error (PyError.configurationError msg))
    ∧ (pick_starting_xi scenarioA_pool [⟨4, 5, 3⟩]).1.length = 13 := by
  refine ⟨by simp [get_ep_model, h1, h2], ?_, by with_unfolding_all decide⟩
  intro msg
  simp [get_ep_model, h1, h2]

theorem claim_C8_config_failures_witness :
    get_ep_model "xgboost"
      = Except.error (PyError.valueError ("Unknown EP model: " ++ "xgboost"))
    ∧ (∀ msg, get_ep_model "xgboost" ≠ Except.error (PyError.configurationError msg))
    ∧ (pick_starting_xi scenarioA_pool [⟨4, 5, 3⟩]).1.length = 13 :=
  claim_C8_config_failures "xgboost" (by decide) (by decide)

/-- C8 counterexample: the unknown model name xgboost raises ValueError,
not ConfigurationError, and the formation configuration [(4,5,3)], which
cannot sum to 11, is processed rather than rejected: pick_starting_xi
returns a 13-player lineup for it on the Scenario A pool. -/
theorem claim_C8_counterexample :
    get_ep_model "xgboost" = Except.error (PyError.valueError "Unknown EP model: xgboost")
    ∧ (1 + 4 + 5 + 3 ≠ 11)
    ∧ (pick_starting_xi scenarioA_pool [⟨4, 5, 3⟩]).1.length = 13 := by
  refine ⟨by with_unfolding_all rfl, by decide, by with_unfolding_all decide⟩

/-- C9: for every pair of columns the blend variant computes, per row, 0.6
times the form value plus 0.4 times the points_per_game value with missing
or non-numeric cells coerced to 0.0 first; in particular form=8.0 and
points_per_game=5.0 blends to exactly 6.8, and a missing form column
contributes 0.0 per row. -/
theorem claim_C9_blend_formula :
    (∀ (fc pc : List RawVal) (n : Nat),
      formPPGBlend_compute (some fc) (some pc) n
        = List.zipWith (fun a b => 0.6 * coerce0 a + 0.4 * coerce0 b) fc pc)
    ∧ coerce0 .nonNumeric = 0 ∧ coerce0 .na = 0
    ∧ formPPGBlend_compute (some [.num 8]) (some [.num 5]) 1 = [6.8]
    ∧ formPPGBlend_compute none (some [.num 5]) 1 = [0.4 * 5] := by
  refine ⟨?_, rfl, rfl, ?_, ?_⟩
  · intro fc pc n
    unfold formPPGBlend_compute getCol
    simp [List.zipWith_map]
  · with_unfolding_all decide
  · with_unfolding_all decide

/-- C10: extract_solution is total over every variable assignment, treating
a variable without a value as unselected: a pool row is returned exactly
when some variable entry for its id holds a value strictly greater than 0.5,
and when no variable has a value the result is the empty list. -/
theorem claim_C10_extract_total (players : List Player)
    (x_vars : List (Nat × Option Rat)) :
    (∀ p, p ∈ extract_solution players x_vars
      ↔ p ∈ players ∧ ∃ v : Rat, (p.id, some v) ∈ x_vars ∧ v > 0.5)
    ∧ ((∀ pr ∈ x_vars, pr.2 = none) → extract_solution players x_vars = []) := by
  have hmem : ∀ i : Nat,
      (((x_vars.filter (fun pr => varSelected pr.2)).map Prod.fst).contains i) = true
        ↔ ∃ v : Rat, (i, some v) ∈ x_vars ∧ v > 0.5 := by
    intro i
    rw [List.elem_iff]
    constructor
    · intro hi
      obtain ⟨pr, hpr, hfst⟩ := List.mem_map.mp hi
      obtain ⟨hprx, hsel⟩ := List.mem_filter.mp hpr
      cases hv : pr.2 with
      | none =>
        rw [hv] at hsel
        simp [varSelected] at hsel
      | some v =>
        refine ⟨v, ?_, ?_⟩
        · have hpr2 : pr = (i, some v) := by
            obtain ⟨a, b⟩ := pr
            simp only at hfst hv
            rw [hfst, hv]
          rw [← hpr2]
          exact hprx
        · rw [hv] at hsel
          simpa [varSelected] using hsel
    · intro hex
      obtain ⟨v, hvx, hvgt⟩ := hex
      refine List.mem_map.mpr ⟨(i, some v), List.mem_filter.mpr ⟨hvx, ?_⟩, rfl⟩
      simp [varSelected, hvgt]
  constructor
  · intro p
    simp only [extract_solution, List.mem_filter]
    rw [hmem p.id]
  · intro hnone
    simp only [extract_solution]
    rw [List.filter_eq_nil_iff]
    intro p hp
    have hfl : x_vars.filter (fun pr => varSelected pr.2) = [] := by
      rw [List.filter_eq_nil_iff]
      intro pr hpr
      simp [varSelected, hnone pr hpr]
    simp [hfl]

theorem claim_C10_extract_total_witness :
    extract_solution scenarioA_pool [(1, none), (2, none)] = [] :=
  (claim_C10_extract_total scenarioA_pool [(1, none), (2, none)]).2
    (by intro pr hpr; fin_cases hpr <;> rfl)
